import Mathlib

/-!
A verification development for the document-analysis platform's RAG
ingestion pipeline.  Each definition is a shallow embedding of one
function of the TypeScript source tree (`src/lib/...`); theorems below
settle the specification claims against these definitions.

Conventions used throughout the embedding:
* `async` functions that can `throw` are modelled as `Except String`-valued
  (or with a dedicated error inductive) pure functions; external effects
  (the relational store, the Redis store, the PDF parser, the vector
  index) are passed in explicitly as data or function parameters.
* JavaScript truthiness on optional strings / numbers is modelled by
  `strTruthy` / `natTruthy`.
* JavaScript `NaN` contamination of numeric expressions is modelled by
  `Option` (`none` = NaN), see `jsMul`/`jsAdd`.
-/

/-! ### Model of `src/lib/cache/redis-cache.ts` -/

/-- JavaScript truthiness of an optional string environment variable or
field: present and non-empty. -/
def strTruthy : Option String → Bool
  | some s => s != ""
  | none => false

/-- JavaScript truthiness of an optional numeric field: present and
non-zero. -/
def natTruthy : Option Nat → Bool
  | some n => n != 0
  | none => false

/-- The environment variables consulted by `redis-cache.ts`. -/
structure RedisEnv where
  upstashRedisUrl : Option String
  upstashRedisToken : Option String
deriving DecidableEq

/-- `getRedisClient()`: returns `null` when either credential is missing
(falsy); otherwise the (lazily created) client.  The client itself carries
no data in the model. -/
def getRedisClient (env : RedisEnv) : Option Unit :=
  if !(strTruthy env.upstashRedisUrl) || !(strTruthy env.upstashRedisToken) then
    none
  else
    some ()

/-- `isRedisConfigured()`: `!!(url && token)`. -/
def isRedisConfigured (env : RedisEnv) : Bool :=
  strTruthy env.upstashRedisUrl && strTruthy env.upstashRedisToken

/-- The contents of the remote Redis store, as a partial map from keys to
values (TTL bookkeeping is not observed by any claim and is not kept). -/
def Store (V : Type) : Type := String → Option V

/-- Pointwise update of the remote store. -/
def storeSet {V : Type} (st : Store V) (k : String) (v : V) : Store V :=
  fun q => if q = k then some v else st q

/-- Pointwise removal from the remote store. -/
def storeDel {V : Type} (st : Store V) (k : String) : Store V :=
  fun q => if q = k then none else st q

/-- Whether the individual remote operations throw (each wrapper guards
its call in `try/catch`). -/
structure RedisFault where
  getFails : Bool
  setFails : Bool
  delFails : Bool
deriving DecidableEq

/-- The key categories of `CACHE_PREFIXES` / `DEFAULT_TTL`. -/
inductive CacheCategory
  | embedding
  | query
  | document
  | summary
  | entities
  | sentiment
deriving DecidableEq

/-- `CACHE_PREFIXES`. -/
def cachePreOf : CacheCategory → String
  | .embedding => "emb:"
  | .query => "query:"
  | .document => "doc:"
  | .summary => "summary:"
  | .entities => "entities:"
  | .sentiment => "sentiment:"

/-- `DEFAULT_TTL` in seconds. -/
def defaultTTL : CacheCategory → Nat
  | .embedding => 60 * 60 * 24 * 7
  | .query => 60 * 60
  | .document => 60 * 60 * 24
  | .summary => 60 * 60 * 24
  | .entities => 60 * 60 * 24
  | .sentiment => 60 * 60 * 24

/-- `getCacheKey(prefix, ...parts)`: the category prefix followed by the
parts joined with `:`. -/
def getCacheKey (cat : CacheCategory) (parts : List String) : String :=
  cachePreOf cat ++ String.intercalate ":" parts

/-- `getCache(key)`: `null` when the client is unconfigured; `null` when
the remote get throws (caught); otherwise the stored value. -/
def getCache {V : Type} (env : RedisEnv) (fault : RedisFault) (st : Store V)
    (key : String) : Option V :=
  match getRedisClient env with
  | none => none
  | some _ =>
    if fault.getFails then none else st key

/-- `setCache(key, value, ttl)`: `false` (store untouched) when the client
is unconfigured or the remote set throws; otherwise writes and returns
`true`.  The `ttl` argument selects `setex` vs `set` in the source; both
write the value. -/
def setCache {V : Type} (env : RedisEnv) (fault : RedisFault) (st : Store V)
    (key : String) (value : V) (ttl : Option Nat) : Bool × Store V :=
  match getRedisClient env with
  | none => (false, st)
  | some _ =>
    if fault.setFails then (false, st)
    else
      match ttl with
      | some _ => (true, storeSet st key value)
      | none => (true, storeSet st key value)

/-- `deleteCache(key)`: `false` when unconfigured or the remote delete
throws; otherwise deletes and returns `true`. -/
def deleteCache {V : Type} (env : RedisEnv) (fault : RedisFault) (st : Store V)
    (key : String) : Bool × Store V :=
  match getRedisClient env with
  | none => (false, st)
  | some _ =>
    if fault.delFails then (false, st)
    else (true, storeDel st key)

/-- `cacheEmbedding(text, embedding)`: keyed by the first 100 characters
of the text under the `emb:` prefix, 7-day TTL. -/
def cacheEmbedding (env : RedisEnv) (fault : RedisFault)
    (st : Store (List Int)) (text : String) (embedding : List Int) :
    Bool × Store (List Int) :=
  setCache env fault st (getCacheKey .embedding [text.take 100]) embedding
    (some (defaultTTL .embedding))

/-- `getCachedEmbedding(text)`: looked up under the same truncated key. -/
def getCachedEmbedding (env : RedisEnv) (fault : RedisFault)
    (st : Store (List Int)) (text : String) : Option (List Int) :=
  getCache env fault st (getCacheKey .embedding [text.take 100])

/-- Lexicographic comparison of character lists, as JavaScript's default
`Array.prototype.sort` comparator orders strings (elementwise code-unit
comparison, shorter list first on ties). -/
def jsLtb : List Char → List Char → Bool
  | [], [] => false
  | [], _ :: _ => true
  | _ :: _, [] => false
  | a :: as, b :: bs => if a < b then true else if b < a then false else jsLtb as bs

/-- The non-strict string order induced by `jsLtb`. -/
def jsStrLe (a b : String) : Prop := jsLtb b.data a.data = false

instance : DecidableRel jsStrLe := fun a b => by unfold jsStrLe; infer_instance

/-- `documentIds.sort()`: the ids in JavaScript's default string sort
order. -/
def sortIds (ids : List String) : List String :=
  List.insertionSort jsStrLe ids

/-- `cacheQuery(query, documentIds, result)`: keyed by the first 100
characters of the query followed by the document ids sorted with
JavaScript `Array.prototype.sort` (lexicographic string order), 1-hour
TTL.  The cached value type is abstract. -/
def cacheQuery {V : Type} (env : RedisEnv) (fault : RedisFault)
    (st : Store V) (query : String) (documentIds : List String) (result : V) :
    Bool × Store V :=
  setCache env fault st
    (getCacheKey .query (query.take 100 :: sortIds documentIds))
    result (some (defaultTTL .query))

/-- `getCachedQuery(query, documentIds)`: looked up under the same sorted
key. -/
def getCachedQuery {V : Type} (env : RedisEnv) (fault : RedisFault)
    (st : Store V) (query : String) (documentIds : List String) : Option V :=
  getCache env fault st
    (getCacheKey .query (query.take 100 :: sortIds documentIds))

/-! ### Model of `src/lib/processors/pdf-processor.ts` -/

/-- The `info` object returned by `pdf-parse` (dates kept as their raw
string form). -/
structure PDFInfo where
  title : Option String
  author : Option String
  subject : Option String
  creator : Option String
  producer : Option String
  creationDate : Option String
  modDate : Option String
deriving DecidableEq

/-- The data object resolved by a successful `pdf-parse` call. -/
structure PDFData where
  text : String
  numpages : Nat
  info : Option PDFInfo
deriving DecidableEq

/-- The `metadata` component of `PDFProcessingResult`. -/
structure PDFMetadata where
  title : Option String
  author : Option String
  subject : Option String
  creator : Option String
  producer : Option String
  creationDate : Option String
  modificationDate : Option String
deriving DecidableEq

/-- `PDFProcessingResult`. -/
structure PDFProcessingResult where
  text : String
  pageCount : Nat
  metadata : PDFMetadata
deriving DecidableEq

/-- `info?.CreationDate ? new Date(...) : undefined`: a truthiness-guarded
pass-through of the raw date string. -/
def pdfDateOf (d : Option String) : Option String :=
  if strTruthy d then d else none

/-- `processPDF(fileBuffer)`.  The behaviour of the underlying parser on
the given buffer is the argument: either the resolved data or the message
of the `Error` it throws.  A parser failure is re-thrown as
`Failed to process PDF: <message>`. -/
def processPDF (parsed : Except String PDFData) : Except String PDFProcessingResult :=
  match parsed with
  | .ok pdfData =>
    .ok
      { text := pdfData.text
        pageCount := pdfData.numpages
        metadata :=
          { title := pdfData.info.bind (·.title)
            author := pdfData.info.bind (·.author)
            subject := pdfData.info.bind (·.subject)
            creator := pdfData.info.bind (·.creator)
            producer := pdfData.info.bind (·.producer)
            creationDate := pdfDateOf (pdfData.info.bind (·.creationDate))
            modificationDate := pdfDateOf (pdfData.info.bind (·.modDate)) } }
  | .error msg => .error ("Failed to process PDF: " ++ msg)

/-! ### Model of `src/lib/processors/excel-processor.ts` -/

/-- One worksheet, as already converted by
`XLSX.utils.sheet_to_json(ws, \x7b header: 1, defval: null, raw: false \x7d)`:
a list of rows of nullable string cells. -/
structure ExcelSheet where
  name : String
  jsonData : List (List (Option String))
deriving DecidableEq

/-- `ExcelTable`. -/
structure ExcelTable where
  sheetName : String
  headers : List String
  rows : List (List (Option String))
  rowCount : Nat
  columnCount : Nat
deriving DecidableEq

/-- The `metadata` component of `ExcelProcessingResult`. -/
structure ExcelMetadata where
  sheetCount : Nat
  totalRows : Nat
  totalColumns : Nat
deriving DecidableEq

/-- `ExcelProcessingResult`. -/
structure ExcelProcessingResult where
  text : String
  tables : List ExcelTable
  metadata : ExcelMetadata
deriving DecidableEq

/-- `String(cell || '')`: a null (or empty) cell renders as the empty
string. -/
def cellToStr (c : Option String) : String :=
  match c with
  | some s => s
  | none => ""

/-- `(jsonData[0] || []).map((cell) => String(cell || ''))`. -/
def sheetHeaders (s : ExcelSheet) : List String :=
  (s.jsonData.headD []).map cellToStr

/-- `jsonData.slice(1)`. -/
def sheetRows (s : ExcelSheet) : List (List (Option String)) :=
  s.jsonData.drop 1

/-- The table pushed for one non-empty sheet. -/
def mkTable (s : ExcelSheet) : ExcelTable :=
  { sheetName := s.name
    headers := sheetHeaders s
    rows := sheetRows s
    rowCount := (sheetRows s).length
    columnCount := (sheetHeaders s).length }

/-- The body of the `workbook.SheetNames.forEach` loop: accumulates
`(tables, totalRows, totalColumns)`, skipping sheets whose converted
`jsonData` is empty. -/
def excelStep (acc : List ExcelTable × Nat × Nat) (s : ExcelSheet) :
    List ExcelTable × Nat × Nat :=
  if s.jsonData.length = 0 then acc
  else
    (acc.1 ++ [mkTable s],
     acc.2.1 + (sheetRows s).length,
     max acc.2.2 (sheetHeaders s).length)

/-- The flattened text block generated for one table:
`Sheet: X`, `Headers: ...`, one `Row n: ...` line per data row, then a
blank line. -/
def tableText (t : ExcelTable) : List String :=
  ["Sheet: " ++ t.sheetName,
   "Headers: " ++ String.intercalate ", " t.headers] ++
  t.rows.enum.map
    (fun p => "Row " ++ toString (p.1 + 1) ++ ": " ++
      String.intercalate " | " (p.2.map cellToStr)) ++
  [""]

/-- `processExcel(fileBuffer)`, applied to the workbook's sheets in order
(`workbook.SheetNames` enumerates every sheet, empty ones included). -/
def processExcel (sheets : List ExcelSheet) : ExcelProcessingResult :=
  let acc := sheets.foldl excelStep ([], 0, 0)
  { text := String.intercalate "\n" (acc.1.flatMap tableText)
    tables := acc.1
    metadata :=
      { sheetCount := sheets.length
        totalRows := acc.2.1
        totalColumns := acc.2.2 } }

/-! ### Model of `src/lib/processors/index.ts` -/

/-- The unified `DocumentProcessingResult.metadata` object (the
extractor-specific structural metadata persisted on success; the DOCX
`html` and Excel `tables` payloads are carried as-is). -/
structure ExtractedMetadata where
  pageCount : Option Nat
  pdfMetadata : Option PDFMetadata
  wordCount : Option Nat
  paragraphCount : Option Nat
  html : Option String
  sheetCount : Option Nat
  totalRows : Option Nat
  totalColumns : Option Nat
  tables : Option (List ExcelTable)
deriving DecidableEq

/-- `DocumentProcessingResult`. -/
structure DocumentProcessingResult where
  text : String
  fileType : String
  metadata : ExtractedMetadata
deriving DecidableEq

/-! ### Model of `src/lib/queue/processor.ts`

The `documents` row is modelled with its `status` and JSON `metadata`
columns; the JSON object is flattened into the fields the module reads or
writes (`retryCount`, `lastRetryAt`, `error`, `errorAt`, and the extracted
structural metadata written on success). -/

/-- The document lifecycle status column. -/
inductive DocStatus
  | uploaded
  | processing
  | completed
  | error
deriving DecidableEq

/-- The JSON `metadata` column of a `documents` row.  Exactly one of the
write sites of `processor.ts` produces each shape; a field absent from
the stored object is `none`. -/
structure DocMetadata where
  extracted : Option ExtractedMetadata
  error : Option String
  errorAt : Option String
  retryCount : Option Nat
  lastRetryAt : Option String
deriving DecidableEq

/-- An empty JSON object (used for `(document.metadata as object) || \x7b\x7d`). -/
def emptyDocMetadata : DocMetadata :=
  { extracted := none, error := none, errorAt := none
    retryCount := none, lastRetryAt := none }

/-- A `documents` row as read and written by `processor.ts`. -/
structure DocumentRow where
  id : String
  userId : String
  s3Key : String
  fileType : String
  status : DocStatus
  metadata : Option DocMetadata
deriving DecidableEq

/-- The behaviour of the pipeline's external stages for one run:
the outcome of `processDocument` (extraction), the outcome of
`chunkDocument` + `indexDocumentChunks`, and the timestamp used for
`new Date().toISOString()`. -/
structure PipelineEnv where
  extractResult : Except String DocumentProcessingResult
  indexResult : Except String Unit
  now : String

/-- One observable step of a pipeline run, in execution order: the three
`db.update` write sites of `processDocumentQueue`, the retry-metadata
write site of `retryDocumentProcessing`, and the two external-stage call
sites. -/
inductive PipeStep
  | updateStatusProcessing
  | extractCall
  | updateCompleted (m : ExtractedMetadata)
  | indexCall
  | updateError (msg : String) (errAt : String)
  | updateRetryMeta (retryCount : Nat) (lastRetryAt : String)
deriving DecidableEq

/-- `processDocumentQueue(documentId, userId, s3Key, fileType)`: the
ordered steps it performs and its outcome.  The `try` block marks
`processing`, extracts, persists the extracted metadata with status
`completed`, then chunks and indexes; the `catch` block overwrites the
row with status `error` and a metadata object holding only the message
and `errorAt` timestamp, then re-throws. -/
def processDocumentQueue (env : PipelineEnv) : List PipeStep × Except String Unit :=
  let attempt : List PipeStep × Except String Unit :=
    match env.extractResult with
    | .error e => ([.updateStatusProcessing, .extractCall], .error e)
    | .ok res =>
      match env.indexResult with
      | .error e =>
        ([.updateStatusProcessing, .extractCall, .updateCompleted res.metadata,
          .indexCall], .error e)
      | .ok _ =>
        ([.updateStatusProcessing, .extractCall, .updateCompleted res.metadata,
          .indexCall], .ok ())
  match attempt with
  | (steps, .ok _) => (steps, .ok ())
  | (steps, .error e) => (steps ++ [.updateError e env.now], .error e)

/-- The effect of one step on the stored row. -/
def applyPipeStep (d : DocumentRow) : PipeStep → DocumentRow
  | .updateStatusProcessing => { d with status := .processing }
  | .extractCall => d
  | .updateCompleted m =>
    { d with
      status := .completed
      metadata := some { emptyDocMetadata with extracted := some m } }
  | .indexCall => d
  | .updateError msg errAt =>
    { d with
      status := .error
      metadata := some { emptyDocMetadata with error := some msg, errorAt := some errAt } }
  | .updateRetryMeta n t =>
    let base := d.metadata.getD emptyDocMetadata
    { d with metadata := some { base with retryCount := some n, lastRetryAt := some t } }

/-- The row after a list of steps. -/
def runSteps (d : DocumentRow) (steps : List PipeStep) : DocumentRow :=
  steps.foldl applyPipeStep d

/-- The sequence of rows a run passes through (initial row included). -/
def docStates (d : DocumentRow) : List PipeStep → List DocumentRow
  | [] => [d]
  | s :: rest => d :: docStates (applyPipeStep d s) rest

/-- The sequence of statuses a run passes through. -/
def statusTrace (d : DocumentRow) (steps : List PipeStep) : List DocStatus :=
  (docStates d steps).map (·.status)

/-- The errors `retryDocumentProcessing` can throw: the missing-document
error, the retry-limit error (`Maximum retry attempts (...) exceeded`),
or a re-thrown pipeline failure. -/
inductive RetryError
  | documentNotFound (id : String)
  | retryLimitExceeded (maxRetries : Nat) (id : String)
  | pipelineFailure (msg : String)
deriving DecidableEq

/-- `retryDocumentProcessing(documentId, maxRetries = 3)`: looks the row
up (the `db.select` result is the argument), returns immediately when the
document is already `completed`, throws once the stored
`metadata.retryCount || 0` has reached `maxRetries`, and otherwise writes
the incremented retry metadata and re-runs `processDocumentQueue`. -/
def retryDocumentProcessing (env : PipelineEnv) (row : Option DocumentRow)
    (documentId : String) (maxRetries : Nat := 3) :
    List PipeStep × Except RetryError Unit :=
  match row with
  | none => ([], .error (.documentNotFound documentId))
  | some d =>
    if d.status = .completed then
      ([], .ok ())
    else
      let retryCount := (d.metadata.bind (·.retryCount)).getD 0
      if maxRetries ≤ retryCount then
        ([], .error (.retryLimitExceeded maxRetries documentId))
      else
        match processDocumentQueue env with
        | (steps, r) =>
          (.updateRetryMeta (retryCount + 1) env.now :: steps,
           r.mapError RetryError.pipelineFailure)

/-! ### Model of `src/lib/ai/cost-tracker.ts` -/

/-- A JavaScript number that may have degenerated to `NaN` (`none`). -/
def JsNum : Type := Option ℚ

/-- NaN-propagating multiplication. -/
def jsMul (a b : JsNum) : JsNum :=
  match a, b with
  | some x, some y => some (x * y)
  | _, _ => none

/-- NaN-propagating addition. -/
def jsAdd (a b : JsNum) : JsNum :=
  match a, b with
  | some x, some y => some (x + y)
  | _, _ => none

/-- `Math.round`, NaN-propagating (`round` on `ℚ` rounds half away from
zero upward, as `Math.round` does for the values at play). -/
def jsRound (a : JsNum) : Option ℤ :=
  match a with
  | some x => some (round x)
  | none => none

/-- NaN-propagating integer accumulation (`cost += ...`). -/
def jsAddInt (a b : Option ℤ) : Option ℤ :=
  match a, b with
  | some x, some y => some (x + y)
  | _, _ => none

/-- One entry of `COST_PER_TOKEN`, rates in cents per token divided by
1000 in use; the `embedding` entry carries no `input`/`output` rates, so
indexing them yields `undefined` (hence NaN downstream). -/
structure CostTableEntry where
  input : Option ℚ
  output : Option ℚ
deriving DecidableEq

/-- `COST_PER_TOKEN[model]` for the models the table knows. -/
def costPerToken : String → Option CostTableEntry
  | "openai" => some { input := some (1 / 100), output := some (3 / 100) }
  | "anthropic" => some { input := some (3 / 1000), output := some (3 / 200) }
  | "gemini" => some { input := some (1 / 2000), output := some (3 / 2000) }
  | "embedding" => some { input := none, output := none }
  | _ => none

/-- `COST_PER_TOKEN.embedding.openai`. -/
def embeddingRate : ℚ := 1 / 10000

/-- The optional `metadata` argument of `trackUsage`. -/
structure UsageMetadata where
  documentId : Option String
  model : Option String
  inputTokens : Option Nat
  outputTokens : Option Nat
  embeddingTokens : Option Nat
deriving DecidableEq

/-- The row handed to `db.insert(usage).values(...)`. -/
structure UsageRow where
  userId : String
  documentId : Option String
  action : String
  cost : Option ℤ
  metadata : UsageMetadata
deriving DecidableEq

/-- The `cost` computation of `trackUsage`: the model branch is guarded
by the truthiness of `metadata?.model && metadata?.inputTokens &&
metadata?.outputTokens` and by `COST_PER_TOKEN[model]`; the embedding
branch by the truthiness of `metadata?.embeddingTokens`. -/
def trackUsageCost (md : Option UsageMetadata) : Option ℤ :=
  let cost0 : Option ℤ := some 0
  let cost1 : Option ℤ :=
    match md with
    | some m =>
      if strTruthy m.model && natTruthy m.inputTokens && natTruthy m.outputTokens then
        match costPerToken (m.model.getD "") with
        | some entry =>
          let inputCost := jsMul (some ((m.inputTokens.getD 0 : ℚ) / 1000)) entry.input
          let outputCost := jsMul (some ((m.outputTokens.getD 0 : ℚ) / 1000)) entry.output
          jsRound (jsMul (jsAdd inputCost outputCost) (some 100))
        | none => cost0
      else cost0
    | none => cost0
  match md with
  | some m =>
    if natTruthy m.embeddingTokens then
      jsAddInt cost1
        (some (round ((m.embeddingTokens.getD 0 : ℚ) / 1000 * embeddingRate * 100)))
    else cost1
  | none => cost1

/-- `trackUsage(userId, action, metadata)`: computes the cost, attempts
the insert (whose outcome on this row is the `insert` argument), and
swallows any `Error` in its `catch` (logging only). -/
def trackUsage (insert : UsageRow → Except String Unit) (userId : String)
    (action : String) (md : Option UsageMetadata) : Except String Unit :=
  let row : UsageRow :=
    { userId := userId
      documentId := md.bind (·.documentId)
      action := action
      cost := trackUsageCost md
      metadata := md.getD
        { documentId := none, model := none, inputTokens := none
          outputTokens := none, embeddingTokens := none } }
  match insert row with
  | .ok _ => .ok ()
  | .error _ => .ok ()

/-! ### The specified status state machine, and concrete fixtures -/

/-- One admissible move of the spec's per-document state machine
`uploaded → processing → completed | error`, extended with the
`completed → error` edge the coordinator actually takes when indexing
fails after completion was recorded (reflexive steps cover database
writes that leave the status unchanged). -/
def statusEdge (a b : DocStatus) : Prop :=
  a = b ∨
  (a = .uploaded ∧ b = .processing) ∨
  (a = .processing ∧ b = .completed) ∨
  (a = .processing ∧ b = .error) ∨
  (a = .completed ∧ b = .error)

instance : DecidableRel statusEdge := fun a b => by unfold statusEdge; infer_instance

/-- Extracted structural metadata of a five-page PDF fixture. -/
def exMeta : ExtractedMetadata :=
  { pageCount := some 5, pdfMetadata := none, wordCount := none
    paragraphCount := none, html := none, sheetCount := none
    totalRows := none, totalColumns := none, tables := none }

/-- A successful extraction result fixture. -/
def exResult : DocumentProcessingResult :=
  { text := "Q3 revenue grew 12%", fileType := "pdf", metadata := exMeta }

/-- A run in which extraction succeeds and indexing succeeds. -/
def exEnvOk : PipelineEnv :=
  { extractResult := .ok exResult, indexResult := .ok ()
    now := "2026-01-01T00:00:00.000Z" }

/-- A run in which extraction succeeds but indexing fails. -/
def exEnvIndexFail : PipelineEnv :=
  { extractResult := .ok exResult, indexResult := .error "vector index unavailable"
    now := "2026-01-01T00:00:00.000Z" }

/-- A run in which extraction itself fails. -/
def exEnvExtractFail : PipelineEnv :=
  { extractResult := .error "Document processing failed: Failed to process PDF: bad xref"
    indexResult := .ok (), now := "2026-01-01T00:00:00.000Z" }

/-- A freshly uploaded document row. -/
def exDocUploaded : DocumentRow :=
  { id := "doc-1", userId := "user-1", s3Key := "uploads/doc-1.pdf"
    fileType := "pdf", status := .uploaded, metadata := none }

/-- A document row stuck in `error` after three recorded retries. -/
def exDocFailedRetry3 : DocumentRow :=
  { id := "doc-1", userId := "user-1", s3Key := "uploads/doc-1.pdf"
    fileType := "pdf", status := .error
    metadata := some { emptyDocMetadata with
      error := some "bad xref", errorAt := some "2025-12-31T00:00:00.000Z"
      retryCount := some 3 } }

/-- A document row stuck in `error` after one recorded retry. -/
def exDocFailedRetry1 : DocumentRow :=
  { exDocFailedRetry3 with
    metadata := some { emptyDocMetadata with
      error := some "bad xref", errorAt := some "2025-12-31T00:00:00.000Z"
      retryCount := some 1 } }

/-- A `completed` document row whose metadata still records three
retries. -/
def exDocCompletedRetry3 : DocumentRow :=
  { exDocFailedRetry3 with
    status := .completed
    metadata := some { emptyDocMetadata with retryCount := some 3 } }

/-- An unconfigured Redis environment. -/
def exEnvNoRedis : RedisEnv :=
  { upstashRedisUrl := none, upstashRedisToken := none }

/-- A configured Redis environment. -/
def exEnvRedis : RedisEnv :=
  { upstashRedisUrl := some "https://example.upstash.io"
    upstashRedisToken := some "token-1" }

/-- A fault-free remote store. -/
def exNoFault : RedisFault :=
  { getFails := false, setFails := false, delFails := false }

/-- An empty remote store. -/
def exEmptyStore (V : Type) : Store V := fun _ => none

/-- A 100-character prefix shared by the two embedding texts below. -/
def exPre100 : String := String.mk (List.replicate 100 'a')

/-- Two texts that agree on their first 100 characters and differ after. -/
def exText1 : String := exPre100 ++ "x"

/-- Second of the two colliding texts. -/
def exText2 : String := exPre100 ++ "y"


/-! ### Ordering facts about the JavaScript string comparator -/

theorem jsLtb_irrefl (x : List Char) : jsLtb x x = false := by
  induction x with
  | nil => rfl
  | cons a as ih => simp [jsLtb, ih]

theorem jsLtb_asymm (x : List Char) :
    ∀ y, jsLtb x y = true → jsLtb y x = false := by
  induction x with
  | nil =>
    intro y h
    cases y with
    | nil => simp [jsLtb] at h
    | cons b bs => simp [jsLtb]
  | cons a as ih =>
    intro y h
    cases y with
    | nil => simp [jsLtb] at h
    | cons b bs =>
      rcases lt_trichotomy a b with hab | rfl | hab
      · simp [jsLtb, hab, lt_asymm hab]
      · simp only [jsLtb, lt_irrefl, if_false] at h ⊢
        exact ih bs h
      · simp [jsLtb, hab, lt_asymm hab] at h

theorem jsLtb_connex (x : List Char) :
    ∀ y, jsLtb x y = false → jsLtb y x = false → x = y := by
  induction x with
  | nil =>
    intro y h1 _
    cases y with
    | nil => rfl
    | cons b bs => simp [jsLtb] at h1
  | cons a as ih =>
    intro y h1 h2
    cases y with
    | nil => simp [jsLtb] at h2
    | cons b bs =>
      rcases lt_trichotomy a b with hab | rfl | hab
      · simp [jsLtb, hab] at h1
      · simp only [jsLtb, lt_irrefl, if_false] at h1 h2
        rw [ih bs h1 h2]
      · simp [jsLtb, hab] at h2

theorem jsLtb_trans (x : List Char) :
    ∀ y z, jsLtb x y = true → jsLtb y z = true → jsLtb x z = true := by
  induction x with
  | nil =>
    intro y z h1 h2
    cases y with
    | nil => simp [jsLtb] at h1
    | cons b bs =>
      cases z with
      | nil => simp [jsLtb] at h2
      | cons c cs => simp [jsLtb]
  | cons a as ih =>
    intro y z h1 h2
    cases y with
    | nil => simp [jsLtb] at h1
    | cons b bs =>
      cases z with
      | nil => simp [jsLtb] at h2
      | cons c cs =>
        rcases lt_trichotomy a b with hab | rfl | hab
        · rcases lt_trichotomy b c with hbc | rfl | hbc
          · simp [jsLtb, lt_trans hab hbc]
          · simp [jsLtb, hab]
          · simp [jsLtb, hbc, lt_asymm hbc] at h2
        · simp only [jsLtb, lt_irrefl, if_false] at h1
          rcases lt_trichotomy a c with hac | rfl | hac
          · simp [jsLtb, hac]
          · simp only [jsLtb, lt_irrefl, if_false] at h2 ⊢
            exact ih bs cs h1 h2
          · simp [jsLtb, hac, lt_asymm hac] at h2
        · simp [jsLtb, hab, lt_asymm hab] at h1

theorem string_eq_of_data_eq {a b : String} (h : a.data = b.data) : a = b := by
  cases a
  cases b
  simp_all

theorem sortIds_perm_eq {l₁ l₂ : List String} (h : l₁.Perm l₂) :
    sortIds l₁ = sortIds l₂ := by
  haveI : IsTotal String jsStrLe := by
    constructor
    intro a b
    unfold jsStrLe
    cases hv : jsLtb b.data a.data with
    | false => exact .inl rfl
    | true => exact .inr (jsLtb_asymm _ _ hv)
  haveI : IsTrans String jsStrLe := by
    constructor
    intro a b c h1 h2
    unfold jsStrLe at *
    by_contra hca
    rw [Bool.not_eq_false] at hca
    cases hab : jsLtb a.data b.data with
    | true => exact absurd (jsLtb_trans _ _ _ hca hab) (by simp [h2])
    | false =>
      have hdata : a.data = b.data := jsLtb_connex _ _ hab h1
      rw [hdata] at hca
      exact absurd hca (by simp [h2])
  haveI : IsAntisymm String jsStrLe := by
    constructor
    intro a b h1 h2
    unfold jsStrLe at *
    exact string_eq_of_data_eq (jsLtb_connex _ _ h2 h1)
  exact List.eq_of_perm_of_sorted
    ((List.perm_insertionSort _ _).trans (h.trans (List.perm_insertionSort _ _).symm))
    (List.sorted_insertionSort _ _) (List.sorted_insertionSort _ _)

/-! ### Facts about the cache client guard -/

theorem getRedisClient_eq_none {env : RedisEnv}
    (h : isRedisConfigured env = false) : getRedisClient env = none := by
  unfold getRedisClient
  unfold isRedisConfigured at h
  cases hu : strTruthy env.upstashRedisUrl <;>
    cases ht : strTruthy env.upstashRedisToken <;> simp_all

theorem getRedisClient_eq_some {env : RedisEnv}
    (h : isRedisConfigured env = true) : getRedisClient env = some () := by
  unfold getRedisClient
  unfold isRedisConfigured at h
  cases hu : strTruthy env.upstashRedisUrl <;>
    cases ht : strTruthy env.upstashRedisToken <;> simp_all

/-! ### Claim C5 -/

/-- C5: when the cache store is unconfigured (missing Redis URL or
token), `getCache` returns `null` (a miss), `setCache` returns `false`
leaving the store untouched, and `deleteCache` returns `false`; all three
are total functions of the model, so none of them raises. -/
theorem cache_unconfigured_degrades {V : Type} (env : RedisEnv)
    (fault : RedisFault) (st : Store V) (key : String) (value : V)
    (ttl : Option Nat) (h : isRedisConfigured env = false) :
    getCache env fault st key = none ∧
    setCache env fault st key value ttl = (false, st) ∧
    deleteCache env fault st key = (false, st) := by
  have hcl := getRedisClient_eq_none h
  refine ⟨?_, ?_, ?_⟩ <;> simp [getCache, setCache, deleteCache, hcl]

/-- Witness for C5 at a concrete unconfigured environment. -/
theorem cache_unconfigured_degrades_witness :
    getCache exEnvNoRedis exNoFault (exEmptyStore Nat) "k" = none ∧
    setCache exEnvNoRedis exNoFault (exEmptyStore Nat) "k" 7 (some 60) =
      (false, exEmptyStore Nat) ∧
    deleteCache exEnvNoRedis exNoFault (exEmptyStore Nat) "k" =
      (false, exEmptyStore Nat) :=
  cache_unconfigured_degrades exEnvNoRedis exNoFault (exEmptyStore Nat) "k" 7
    (some 60) (by decide)

/-! ### Claim C6 -/

/-- C6: two texts that agree on their first 100 characters produce the
same embedding cache key, so `cacheEmbedding` on one text makes
`getCachedEmbedding` on the other return the first text's vector. -/
theorem cacheEmbedding_shared_key (env : RedisEnv) (fault : RedisFault)
    (st : Store (List Int)) (t1 t2 : String) (v : List Int)
    (h100 : t1.take 100 = t2.take 100)
    (hc : isRedisConfigured env = true)
    (hset : fault.setFails = false) (hget : fault.getFails = false) :
    getCacheKey .embedding [t1.take 100] = getCacheKey .embedding [t2.take 100] ∧
    getCachedEmbedding env fault (cacheEmbedding env fault st t1 v).2 t2 = some v := by
  have hcl := getRedisClient_eq_some hc
  constructor
  · rw [h100]
  · simp [getCachedEmbedding, cacheEmbedding, getCache, setCache, hcl, hset,
      hget, h100, storeSet]

set_option maxRecDepth 8000 in
/-- Witness for C6 at two concrete 101-character texts differing only in
their final character. -/
theorem cacheEmbedding_shared_key_witness :
    getCacheKey .embedding [exText1.take 100] =
      getCacheKey .embedding [exText2.take 100] ∧
    getCachedEmbedding exEnvRedis exNoFault
      (cacheEmbedding exEnvRedis exNoFault (exEmptyStore (List Int)) exText1 [1, 2, 3]).2
      exText2 = some [1, 2, 3] :=
  cacheEmbedding_shared_key exEnvRedis exNoFault (exEmptyStore (List Int))
    exText1 exText2 [1, 2, 3] (by decide) (by decide) (by decide) (by decide)

/-! ### Claim C7 -/

/-- C7: permuting the document id list does not change the query cache
key, so a result cached under one ordering is found under any other
ordering of the same ids. -/
theorem cacheQuery_id_order_irrelevant {V : Type} (env : RedisEnv)
    (fault : RedisFault) (st : Store V) (q : String)
    (ids1 ids2 : List String) (r : V)
    (hperm : ids1.Perm ids2)
    (hc : isRedisConfigured env = true)
    (hset : fault.setFails = false) (hget : fault.getFails = false) :
    getCacheKey .query (q.take 100 :: sortIds ids1) =
      getCacheKey .query (q.take 100 :: sortIds ids2) ∧
    getCachedQuery env fault (cacheQuery env fault st q ids1 r).2 q ids2 = some r := by
  have hk := sortIds_perm_eq hperm
  have hcl := getRedisClient_eq_some hc
  constructor
  · rw [hk]
  · simp [getCachedQuery, cacheQuery, getCache, setCache, hcl, hset, hget, hk,
      storeSet]

/-- Witness for C7 at a concrete pair of reordered id lists. -/
theorem cacheQuery_id_order_irrelevant_witness :
    getCacheKey .query ("what grew".take 100 :: sortIds ["doc-b", "doc-a"]) =
      getCacheKey .query ("what grew".take 100 :: sortIds ["doc-a", "doc-b"]) ∧
    getCachedQuery exEnvRedis exNoFault
      (cacheQuery exEnvRedis exNoFault (exEmptyStore Nat) "what grew"
        ["doc-b", "doc-a"] 42).2
      "what grew" ["doc-a", "doc-b"] = some 42 :=
  cacheQuery_id_order_irrelevant exEnvRedis exNoFault (exEmptyStore Nat)
    "what grew" ["doc-b", "doc-a"] ["doc-a", "doc-b"] 42
    (by decide) (by decide) (by decide) (by decide)

/-! ### Claim C9 -/

/-- C9: when the underlying parser throws with message `msg`, `processPDF`
fails, and its error message contains `msg` as a substring. -/
theorem processPDF_error_includes_parser_message (msg : String) :
    processPDF (.error msg) = .error ("Failed to process PDF: " ++ msg) ∧
    ∃ pre post, "Failed to process PDF: " ++ msg = pre ++ msg ++ post := by
  refine ⟨rfl, "Failed to process PDF: ", "", ?_⟩
  simp

/-! ### Claim C10 -/

/-- C10: `trackUsage` returns normally whatever the outcome of the
underlying insert (including a failing relational store), so a
usage-tracking failure can never abort the operation it is attached
to. -/
theorem trackUsage_never_throws (insert : UsageRow → Except String Unit)
    (userId action : String) (md : Option UsageMetadata) :
    trackUsage insert userId action md = .ok () := by
  cases h : insert
      { userId := userId
        documentId := md.bind (·.documentId)
        action := action
        cost := trackUsageCost md
        metadata := md.getD
          { documentId := none, model := none, inputTokens := none
            outputTokens := none, embeddingTokens := none } } <;>
    simp [trackUsage, h]

/-! ### Claim C8 -/

theorem foldl_max_eq_max_foldr (l : List Nat) (c : Nat) :
    l.foldl max c = max c (l.foldr max 0) := by
  induction l generalizing c with
  | nil => simp
  | cons x xs ih => simp [List.foldl_cons, List.foldr_cons, ih (max c x), Nat.max_assoc]

theorem excelFold_spec (sheets : List ExcelSheet) (ts : List ExcelTable) (r c : Nat) :
    sheets.foldl excelStep (ts, r, c) =
      (ts ++ (sheets.filter (fun s => s.jsonData.length != 0)).map mkTable,
       r + ((sheets.filter (fun s => s.jsonData.length != 0)).map
         (fun s => (sheetRows s).length)).sum,
       ((sheets.filter (fun s => s.jsonData.length != 0)).map
         (fun s => (sheetHeaders s).length)).foldl max c) := by
  induction sheets generalizing ts r c with
  | nil => simp
  | cons s rest ih =>
    by_cases hs : s.jsonData.length = 0
    · simp [List.foldl_cons, excelStep, hs, List.filter_cons, ih]
    · simp [List.foldl_cons, excelStep, hs, List.filter_cons, ih,
        Nat.add_assoc]

/-- C8: `processExcel` keeps exactly the sheets whose converted row list
is non-empty (in order); `totalRows` is the sum of the data-row counts
(rows after the header row) of those sheets; `totalColumns` is the
maximum header-row width across those sheets. -/
theorem processExcel_skips_and_totals (sheets : List ExcelSheet) :
    (processExcel sheets).tables =
      (sheets.filter (fun s => s.jsonData.length != 0)).map mkTable ∧
    (processExcel sheets).metadata.totalRows =
      ((sheets.filter (fun s => s.jsonData.length != 0)).map
        (fun s => (sheetRows s).length)).sum ∧
    (processExcel sheets).metadata.totalColumns =
      ((sheets.filter (fun s => s.jsonData.length != 0)).map
        (fun s => (sheetHeaders s).length)).foldr max 0 := by
  simp only [processExcel]
  rw [excelFold_spec]
  simp [foldl_max_eq_max_foldr]

/-! ### Claim C1 -/

/-- C1 counterexample: a document whose stored retry counter has reached
`maxRetries = 3` but whose status is `completed` makes
`retryDocumentProcessing` return normally (the early `completed` return)
instead of raising the retry-limit error — though it still performs no
pipeline step. -/
theorem retryDocument_at_limit_counterexample :
    3 ≤ (exDocCompletedRetry3.metadata.bind (·.retryCount)).getD 0 ∧
    retryDocumentProcessing exEnvOk (some exDocCompletedRetry3) "doc-1" 3 =
      ([], .ok ()) ∧
    (retryDocumentProcessing exEnvOk (some exDocCompletedRetry3) "doc-1" 3).2 ≠
      .error (.retryLimitExceeded 3 "doc-1") :=
  ⟨by decide, rfl, fun h => Except.noConfusion h⟩

/-- C1 (amended): for every document that is not already `completed`,
calling the retry operation once the stored retry counter has reached
`maxRetries` raises the retry-limit error and performs no pipeline step —
in particular extraction is not re-invoked. -/
theorem retryDocumentProcessing_limit_no_rerun (env : PipelineEnv)
    (d : DocumentRow) (documentId : String) (maxRetries : Nat)
    (hc : d.status ≠ .completed)
    (hr : maxRetries ≤ (d.metadata.bind (·.retryCount)).getD 0) :
    retryDocumentProcessing env (some d) documentId maxRetries =
      ([], .error (.retryLimitExceeded maxRetries documentId)) ∧
    PipeStep.extractCall ∉ (retryDocumentProcessing env (some d) documentId maxRetries).1 := by
  have h1 : retryDocumentProcessing env (some d) documentId maxRetries =
      ([], .error (.retryLimitExceeded maxRetries documentId)) := by
    simp only [retryDocumentProcessing]
    rw [if_neg hc, if_pos hr]
  exact ⟨h1, by rw [h1]; simp⟩

/-- Witness for C1 (amended) at a concrete errored document with three
recorded retries. -/
theorem retryDocumentProcessing_limit_no_rerun_witness :
    retryDocumentProcessing exEnvOk (some exDocFailedRetry3) "doc-1" 3 =
      ([], .error (.retryLimitExceeded 3 "doc-1")) ∧
    PipeStep.extractCall ∉
      (retryDocumentProcessing exEnvOk (some exDocFailedRetry3) "doc-1" 3).1 :=
  retryDocumentProcessing_limit_no_rerun exEnvOk exDocFailedRetry3 "doc-1" 3
    (by decide) (by decide)

/-! ### Claim C2 -/

/-- C2: whenever extraction or the subsequent indexing fails, the
document's metadata column is replaced wholesale by an object holding
only the error message and `errorAt` timestamp (every other field,
including previously extracted metadata and `retryCount`, is erased) and
the status becomes `error`; consequently the `retryCount` that
`retryDocumentProcessing` writes just before redriving the pipeline does
not survive a failed run. -/
theorem processDocumentQueue_failure_wipes_metadata (env : PipelineEnv)
    (d : DocumentRow) (documentId : String) (maxRetries : Nat) (msg : String)
    (hfail : env.extractResult = .error msg ∨
      ((∃ res, env.extractResult = .ok res) ∧ env.indexResult = .error msg)) :
    ((runSteps d (processDocumentQueue env).1).metadata =
      some { emptyDocMetadata with error := some msg, errorAt := some env.now } ∧
     (runSteps d (processDocumentQueue env).1).status = .error) ∧
    (d.status ≠ .completed →
      (d.metadata.bind (·.retryCount)).getD 0 < maxRetries →
      (runSteps d (retryDocumentProcessing env (some d) documentId maxRetries).1).metadata =
        some { emptyDocMetadata with error := some msg, errorAt := some env.now }) := by
  have hq : ∀ d' : DocumentRow,
      (runSteps d' (processDocumentQueue env).1).metadata =
        some { emptyDocMetadata with error := some msg, errorAt := some env.now } ∧
      (runSteps d' (processDocumentQueue env).1).status = .error := by
    intro d'
    rcases hfail with he | ⟨⟨res, he⟩, hi⟩
    · simp [processDocumentQueue, he, runSteps, applyPipeStep]
    · simp [processDocumentQueue, he, hi, runSteps, applyPipeStep]
  refine ⟨hq d, fun h1 h2 => ?_⟩
  have hretry : (retryDocumentProcessing env (some d) documentId maxRetries).1 =
      PipeStep.updateRetryMeta ((d.metadata.bind (·.retryCount)).getD 0 + 1) env.now ::
        (processDocumentQueue env).1 := by
    simp only [retryDocumentProcessing]
    rw [if_neg h1, if_neg (Nat.not_le.mpr h2)]
  rw [hretry]
  show (runSteps (applyPipeStep d _) (processDocumentQueue env).1).metadata = _
  exact (hq _).1

/-- Witness for C2: a failing extraction run over a document that had one
recorded retry; after the retried run the metadata holds only the error
object. -/
theorem processDocumentQueue_failure_wipes_metadata_witness :
    ((runSteps exDocFailedRetry1 (processDocumentQueue exEnvExtractFail).1).metadata =
      some { emptyDocMetadata with
        error := some "Document processing failed: Failed to process PDF: bad xref"
        errorAt := some "2026-01-01T00:00:00.000Z" } ∧
     (runSteps exDocFailedRetry1 (processDocumentQueue exEnvExtractFail).1).status = .error) ∧
    (exDocFailedRetry1.status ≠ .completed →
      (exDocFailedRetry1.metadata.bind (·.retryCount)).getD 0 < 3 →
      (runSteps exDocFailedRetry1
        (retryDocumentProcessing exEnvExtractFail (some exDocFailedRetry1) "doc-1" 3).1).metadata =
        some { emptyDocMetadata with
          error := some "Document processing failed: Failed to process PDF: bad xref"
          errorAt := some "2026-01-01T00:00:00.000Z" }) :=
  processDocumentQueue_failure_wipes_metadata exEnvExtractFail exDocFailedRetry1
    "doc-1" 3 "Document processing failed: Failed to process PDF: bad xref"
    (Or.inl rfl)

/-! ### Claim C3 -/

/-- C3 counterexample: a run whose extraction succeeds but whose indexing
fails passes through `completed` and then ends at `error` — so a
document whose extraction succeeds does not always end at `completed`,
and a document at `completed` can transition to `error`. -/
theorem processDocumentQueue_completed_then_error_counterexample :
    exEnvIndexFail.extractResult = .ok exResult ∧
    statusTrace exDocUploaded (processDocumentQueue exEnvIndexFail).1 =
      [.uploaded, .processing, .processing, .completed, .completed, .error] ∧
    (runSteps exDocUploaded (processDocumentQueue exEnvIndexFail).1).status = .error :=
  ⟨rfl, by decide, by decide⟩

/-- C3 (amended): starting from `uploaded`, every status change of a run
follows `uploaded → processing → completed | error` extended with the
edge `completed → error`; the run first marks `processing`; a run whose
extraction fails ends at `error` without ever reaching `completed`; a run
whose extraction and indexing both succeed ends at `completed`; and a run
whose extraction succeeds but whose indexing fails reaches `completed`
and then ends at `error`. -/
theorem processDocumentQueue_status_machine (env : PipelineEnv)
    (d : DocumentRow) (h : d.status = .uploaded) :
    List.Chain' statusEdge (statusTrace d (processDocumentQueue env).1) ∧
    (statusTrace d (processDocumentQueue env).1).take 2 =
      [.uploaded, .processing] ∧
    (∀ msg, env.extractResult = .error msg →
      (runSteps d (processDocumentQueue env).1).status = .error ∧
      DocStatus.completed ∉ statusTrace d (processDocumentQueue env).1) ∧
    (∀ res, env.extractResult = .ok res → env.indexResult = .ok () →
      (runSteps d (processDocumentQueue env).1).status = .completed) ∧
    (∀ res msg, env.extractResult = .ok res → env.indexResult = .error msg →
      DocStatus.completed ∈ statusTrace d (processDocumentQueue env).1 ∧
      (runSteps d (processDocumentQueue env).1).status = .error) := by
  rcases hE : env.extractResult with msg | res <;>
    rcases hI : env.indexResult with imsg | iu
  · refine ⟨?_, ?_, fun m hm => ?_, fun r hr _ => ?_, fun r m hr _ => ?_⟩ <;>
      simp_all [processDocumentQueue, statusTrace, docStates, applyPipeStep,
        runSteps, statusEdge, h]
  · cases iu
    refine ⟨?_, ?_, fun m hm => ?_, fun r hr _ => ?_, fun r m hr hm => ?_⟩ <;>
      simp_all [processDocumentQueue, statusTrace, docStates, applyPipeStep,
        runSteps, statusEdge, h]
  · refine ⟨?_, ?_, fun m hm => ?_, fun r hr _ => ?_, fun r m hr hm => ?_⟩ <;>
      simp_all [processDocumentQueue, statusTrace, docStates, applyPipeStep,
        runSteps, statusEdge, h]
  · cases iu
    refine ⟨?_, ?_, fun m hm => ?_, fun r hr hi => ?_, fun r m hr hm => ?_⟩ <;>
      simp_all [processDocumentQueue, statusTrace, docStates, applyPipeStep,
        runSteps, statusEdge, h]

/-- Witness for C3 (amended): the indexing-failure clause at the concrete
fixture run. -/
theorem processDocumentQueue_status_machine_witness :
    DocStatus.completed ∈ statusTrace exDocUploaded (processDocumentQueue exEnvIndexFail).1 ∧
    (runSteps exDocUploaded (processDocumentQueue exEnvIndexFail).1).status = .error :=
  (processDocumentQueue_status_machine exEnvIndexFail exDocUploaded rfl).2.2.2.2
    exResult "vector index unavailable" rfl rfl

/-! ### Claim C4 -/

/-- C4: when extraction succeeds, at the point the indexing stage is
invoked, the extracted structural metadata has already been persisted and
the status already set to `completed` — the indexing call is never
reached while the status is not `completed`. -/
theorem processDocumentQueue_completed_before_indexCall (env : PipelineEnv)
    (res : DocumentProcessingResult) (d : DocumentRow)
    (h : env.extractResult = .ok res) :
    ∀ k, (hk : k < (processDocumentQueue env).1.length) →
      (processDocumentQueue env).1.get ⟨k, hk⟩ = PipeStep.indexCall →
      (runSteps d ((processDocumentQueue env).1.take k)).status = .completed ∧
      (runSteps d ((processDocumentQueue env).1.take k)).metadata =
        some { emptyDocMetadata with extracted := some res.metadata } := by
  rcases hI : env.indexResult with imsg | iu
  · simp only [processDocumentQueue, h, hI]
    intro k hk hstep
    simp at hk
    interval_cases k <;>
      simp_all [runSteps, applyPipeStep]
  · cases iu
    simp only [processDocumentQueue, h, hI]
    intro k hk hstep
    simp at hk
    interval_cases k <;>
      simp_all [runSteps, applyPipeStep]

/-- Witness for C4 at the concrete fixture run (indexing is step 3,
after the `completed` write). -/
theorem processDocumentQueue_completed_before_indexCall_witness :
    (runSteps exDocUploaded ((processDocumentQueue exEnvIndexFail).1.take 3)).status =
      .completed ∧
    (runSteps exDocUploaded ((processDocumentQueue exEnvIndexFail).1.take 3)).metadata =
      some { emptyDocMetadata with extracted := some exResult.metadata } :=
  processDocumentQueue_completed_before_indexCall exEnvIndexFail exResult
    exDocUploaded rfl 3 (by decide) (by decide)
